import Mathlib

/-! Verification of the sales/stock reconciliation pipeline of `app.py`
(Sales & Stock Management Dashboard).

The Python source manipulates pandas DataFrames whose cells hold either
numbers or strings, as produced by `gspread.get_all_records`.  We embed a
cell as `SalesApp.Val`: exact rationals stand for Python numerics (ints and
floats are not distinguished) and `Val.str` for strings.  Element-wise
pandas arithmetic on object columns follows Python operator semantics,
embedded by `pyMul`, `pySub`, `pyAdd`; these return `Except` exactly where
Python raises a `TypeError`.  Library parsing routines (`pd.to_datetime`,
`pd.to_numeric`, `int(...)`) are embedded on an explicit decimal grammar,
documented at each definition. -/

namespace SalesApp

/-- Cell value of a raw spreadsheet record: a numeric (modelled as an exact
rational) or a string. -/
inductive Val where
  | num (q : ℚ)
  | str (s : String)
deriving DecidableEq, Inhabited

/-- Python string repetition `s * n` (empty for non-positive `n`). -/
def repeatStr (s : String) (n : ℤ) : String :=
  String.join (List.replicate n.toNat s)

/-- Python/pandas element-wise multiplication on object cells:
number × number multiplies; string × integer repeats the string; string ×
non-integer number and string × string raise `TypeError`. -/
def pyMul : Val → Val → Except String Val
  | .num a, .num b => .ok (.num (a * b))
  | .num a, .str s =>
      if a.den = 1 then .ok (.str (repeatStr s a.num))
      else .error "TypeError: cannot multiply sequence by non-int"
  | .str s, .num b =>
      if b.den = 1 then .ok (.str (repeatStr s b.num))
      else .error "TypeError: cannot multiply sequence by non-int"
  | .str _, .str _ => .error "TypeError: cannot multiply sequence by non-int"

/-- Python/pandas element-wise subtraction: defined on numbers only; any
operand that is a string raises `TypeError`. -/
def pySub : Val → Val → Except String Val
  | .num a, .num b => .ok (.num (a - b))
  | _, _ => .error "TypeError: unsupported operand types for sub"

/-- Python/pandas element-wise addition (used by column sums): numbers add,
strings concatenate, a mixed pair raises `TypeError`. -/
def pyAdd : Val → Val → Except String Val
  | .num a, .num b => .ok (.num (a + b))
  | .str a, .str b => .ok (.str (a ++ b))
  | _, _ => .error "TypeError: unsupported operand types for add"

/-- Value of a list of decimal digit characters; `none` if empty or any
character is not a digit. -/
def digitsVal : List Char → Option Nat
  | [] => none
  | cs =>
      if cs.all (fun c => c.isDigit) then
        some (cs.foldl (fun a c => a * 10 + (c.toNat - 48)) 0)
      else none

/-- Unsigned decimal number, optionally with a fractional part
(`digits` or `digits.digits`). -/
def parseRatCore (cs : List Char) : Option ℚ :=
  let ip := cs.takeWhile (fun c => c ≠ '.')
  let rest := cs.dropWhile (fun c => c ≠ '.')
  match rest with
  | [] => (digitsVal ip).map (fun n => (n : ℚ))
  | '.' :: frac =>
      match digitsVal ip, digitsVal frac with
      | some i, some f => some ((i : ℚ) + (f : ℚ) / ((10 : ℚ) ^ frac.length))
      | _, _ => none
  | _ => none

/-- Numeric grammar backing `pd.to_numeric`: an optional minus sign followed
by a decimal number.  Strings outside this grammar are the modelled
"unparseable" values. -/
def parseRat (s : String) : Option ℚ :=
  match s.toList with
  | '-' :: cs => (parseRatCore cs).map (fun q => -q)
  | cs => parseRatCore cs

/-- Integer grammar backing `int(...)` / `.astype(int)` on strings: optional
minus sign then digits. -/
def parseIntStr (s : String) : Option ℤ :=
  match s.toList with
  | '-' :: cs => (digitsVal cs).map (fun n => -(n : ℤ))
  | cs => (digitsVal cs).map (fun n => (n : ℤ))

/-- Truncation toward zero, the behaviour of Python `int()` and numpy
`.astype(int)` on numerics. -/
def ratTrunc (q : ℚ) : ℤ := Int.tdiv q.num (q.den : ℤ)

/-- Embeds `pd.to_datetime(x, errors="coerce")` on one cell: integral
numbers and all-digit strings stand for parseable dates (abstracted to a
day number); everything else coerces to the null marker `none` (NaT). -/
def parseDate : Val → Option ℤ
  | .num q => if q.den = 1 then some q.num else none
  | .str s => (digitsVal s.toList).map (fun n => (n : ℤ))

/-- Embeds `pd.to_numeric(x, errors="coerce").fillna(0)` on one cell:
numbers pass through, parseable strings parse, everything else becomes 0. -/
def toNumQ : Val → ℚ
  | .num q => q
  | .str s => (parseRat s).getD 0

/-- One cell of line 63 of `app.py`:
`pd.to_numeric(col, errors="coerce").fillna(0).astype(int)`. -/
def coerceCell (v : Val) : ℤ := ratTrunc (toNumQ v)

/-- Embeds `.astype(int)` on a merged object cell: numbers truncate toward
zero, strings go through `int(...)` and raise `ValueError` when they are
not an integer literal. -/
def astypeInt : Val → Except String ℤ
  | .num q => .ok (ratTrunc q)
  | .str s =>
      match parseIntStr s with
      | some n => .ok n
      | none => .error "ValueError: invalid literal for int conversion"

/-- Equality of embedded run results is decidable, so concrete runs can be
checked by evaluation. -/
instance {ε α : Type} [DecidableEq ε] [DecidableEq α] :
    DecidableEq (Except ε α)
  | .error e1, .error e2 =>
      if h : e1 = e2 then .isTrue (by rw [h]) else .isFalse (by simp [h])
  | .error _, .ok _ => .isFalse (by simp)
  | .ok _, .error _ => .isFalse (by simp)
  | .ok a1, .ok a2 =>
      if h : a1 = a2 then .isTrue (by rw [h]) else .isFalse (by simp [h])

/-- Python statement sequencing: if the first computation raises, the
exception propagates and the continuation never runs. -/
def andThen {α β : Type} (e : Except String α) (k : α → Except String β) :
    Except String β :=
  match e with
  | .error msg => .error msg
  | .ok a => k a

/-- Map with failure, the element-wise evaluation order of a whole-column
pandas operation: the first failing cell aborts the statement. -/
def exMap {α β : Type} (f : α → Except String β) : List α → Except String (List β)
  | [] => .ok []
  | a :: l =>
      match f a with
      | .error e => .error e
      | .ok b =>
          match exMap f l with
          | .error e => .error e
          | .ok bs => .ok (b :: bs)

/-- Left fold of `pyAdd` over the tail, starting from the head. -/
def vsumGo (acc : Val) : List Val → Except String Val
  | [] => .ok acc
  | y :: ys =>
      match pyAdd acc y with
      | .ok a => vsumGo a ys
      | .error e => .error e

/-- Column sum as pandas computes it for a groupby aggregate: empty sums to
0, otherwise the cells are combined left to right with `pyAdd`. -/
def vsum : List Val → Except String Val
  | [] => .ok (.num 0)
  | x :: xs => vsumGo x xs

/-- Raw Sales record: the cells of the columns named by the Sales column
contract (`Date`, `Product`, `Quantity Sold`, `Unit Price`, `Cost Price`).
A cell is meaningful only when the matching column is present in the
frame. -/
structure SalesRow where
  date : Val
  product : String
  qty : Val
  price : Val
  cost : Val
deriving DecidableEq, Inhabited

/-- Raw Sales frame: `has*` flags record which optional columns are present
(pandas column presence is per frame, not per row). -/
structure SalesFrame where
  hasDate : Bool
  hasQty : Bool
  hasPrice : Bool
  hasCost : Bool
  rows : List SalesRow
deriving DecidableEq, Inhabited

/-- Sanitized Sales record, after lines 51-57 of `app.py`: parsed date,
numeric columns guaranteed present, and the derived `Total` and `Profit`
cells. -/
structure SalesRowS where
  date : Option ℤ
  product : String
  qty : Val
  price : Val
  cost : Val
  total : Val
  profit : Val
deriving DecidableEq, Inhabited

/-- Raw Stock record: cells of the Stock column contract. -/
structure StockRow where
  product : String
  category : String
  opening : Val
  stockIn : Val
  stockOut : Val
  minThreshold : Val
deriving DecidableEq, Inhabited

/-- Raw Stock frame.  `cols` is the left-to-right column order of the sheet
(needed for `columns.get_loc` in the write-back); a numeric column is
missing exactly when its name is not in `cols`. -/
structure StockFrame where
  cols : List String
  rows : List StockRow
deriving DecidableEq, Inhabited

/-- Sanitized Stock record: the four numeric columns coerced to integers
(lines 59-63 of `app.py`). -/
structure StockRowS where
  product : String
  category : String
  opening : ℤ
  stockIn : ℤ
  stockOut : ℤ
  minThreshold : ℤ
deriving DecidableEq, Inhabited

/-- Sanitized Stock frame, with the column list extended by the numeric
columns that were added by the sanitizer. -/
structure StockFrameS where
  cols : List String
  rows : List StockRowS
deriving DecidableEq, Inhabited

/-- The four Stock numeric column names, in the order of the loops at
lines 59-63 of `app.py`. -/
def stockColNames : List String :=
  ["Opening Stock", "Stock In", "Stock Out", "Min Threshold"]

/-- Lines 53-55 (and 59-61) of `app.py` on one cell: the cell of a present
column, or the filled-in 0 of a column that was missing and was defaulted
for the whole frame. -/
def colOr (present : Bool) (v : Val) : Val := if present then v else .num 0

/-- Lines 51-57 of `app.py` restricted to one row: default missing numeric
columns to 0, parse the date, and compute
`Total = Quantity Sold * Unit Price` and
`Profit = (Unit Price - Cost Price) * Quantity Sold` with Python
element-wise semantics. -/
def sanitizeRow (f : SalesFrame) (r : SalesRow) : Except String SalesRowS :=
  andThen (pyMul (colOr f.hasQty r.qty) (colOr f.hasPrice r.price)) (fun t =>
    andThen (pySub (colOr f.hasPrice r.price) (colOr f.hasCost r.cost)) (fun d =>
      andThen (pyMul d (colOr f.hasQty r.qty)) (fun pr =>
        .ok { date := if f.hasDate then parseDate r.date else none,
              product := r.product,
              qty := colOr f.hasQty r.qty,
              price := colOr f.hasPrice r.price,
              cost := colOr f.hasCost r.cost,
              total := t, profit := pr })))

/-- Lines 51-57 of `app.py`: sanitize the Sales frame.  If the `Date`
column is absent the sanitized date is the null marker (the source then
never creates the column; no claim depends on that distinction). -/
def sanitizeSales (f : SalesFrame) : Except String (List SalesRowS) :=
  exMap (sanitizeRow f) f.rows

/-- Lines 59-63 of `app.py`: default missing Stock numeric columns to 0,
coerce the four numeric columns to integers, and append the added column
names to the frame in loop order. -/
def sanitizeStock (f : StockFrame) : StockFrameS :=
  { cols := f.cols ++ stockColNames.filter (fun c => ¬ f.cols.contains c),
    rows := f.rows.map (fun r =>
      { product := r.product, category := r.category,
        opening := if f.cols.contains "Opening Stock" then coerceCell r.opening else 0,
        stockIn := if f.cols.contains "Stock In" then coerceCell r.stockIn else 0,
        stockOut := if f.cols.contains "Stock Out" then coerceCell r.stockOut else 0,
        minThreshold := if f.cols.contains "Min Threshold" then coerceCell r.minThreshold else 0 }) }

/-- One row of the sales aggregation (lines 66-71 of `app.py`), after the
rename to `Total Sold`, `Sales Value`, `Total Profit`. -/
structure AggRow where
  product : String
  totalSold : Val
  salesValue : Val
  totalProfit : Val
deriving DecidableEq, Inhabited

/-- The group of sanitized Sales rows of one product, the rows a groupby
aggregate for that product sums over. -/
def groupOf (rows : List SalesRowS) (p : String) : List SalesRowS :=
  rows.filter (fun r => r.product == p)

/-- Aggregate of one product: sum of `Quantity Sold`, `Total` and `Profit`
over its group. -/
def aggFor (rows : List SalesRowS) (p : String) : Except String AggRow :=
  andThen (vsum ((groupOf rows p).map (fun r => r.qty))) (fun ts =>
    andThen (vsum ((groupOf rows p).map (fun r => r.total))) (fun sv =>
      andThen (vsum ((groupOf rows p).map (fun r => r.profit))) (fun tp =>
        .ok ⟨p, ts, sv, tp⟩)))

/-- The distinct product keys of the sanitized Sales rows, each exactly
once.  pandas `groupby(sort=True)` emits them sorted; the key order is
unobservable downstream (the merge looks rows up by key), so we keep
`List.dedup` order. -/
def uniqKeys (l : List String) : List String := l.dedup

/-- Lines 66-71 of `app.py`: `sales_df.groupby("Product").agg(...)` with
the columns renamed — one aggregate row per distinct product. -/
def salesAgg (rows : List SalesRowS) : Except String (List AggRow) :=
  exMap (aggFor rows) (uniqKeys (rows.map (fun r => r.product)))

/-- The aggregate rows whose `Product` equals `p` — the right-hand matches
of one Stock row in `pd.merge(stock_df, sales_agg, on="Product",
how="left")`. -/
def matchesFor (agg : List AggRow) (p : String) : List AggRow :=
  agg.filter (fun a => a.product == p)

/-- Line 74 of `app.py`: left join of the Stock rows against the
aggregation.  A Stock row with no match yields one row with a null (`none`)
sales part; a Stock row with matches fans out to one row per match. -/
def pdMergeLeft (stockRows : List StockRowS) (agg : List AggRow) :
    List (StockRowS × Option AggRow) :=
  match stockRows with
  | [] => []
  | s :: rest =>
      (match matchesFor agg s.product with
       | [] => [(s, none)]
       | ms => ms.map (fun a => (s, some a))) ++ pdMergeLeft rest agg

/-- Reconciled product row (lines 74-78 of `app.py`): the Stock fields, the
zero-filled sales aggregates, and the derived `Current Stock`. -/
structure MergedRow where
  product : String
  category : String
  opening : ℤ
  stockIn : ℤ
  stockOut : ℤ
  minThreshold : ℤ
  totalSold : ℤ
  salesValue : Val
  totalProfit : Val
  currentStock : ℤ
deriving DecidableEq, Inhabited

/-- Line 75 of `app.py`, the `fillna(0)` on `Total Sold`: the aggregate
cell when the join matched, 0 when it did not. -/
def fillTotalSold : Option AggRow → Val
  | none => Val.num 0
  | some a => a.totalSold

/-- Line 76 of `app.py`, the `fillna(0.0)` on `Sales Value`. -/
def fillSalesValue : Option AggRow → Val
  | none => Val.num 0
  | some a => a.salesValue

/-- Line 77 of `app.py`, the `fillna(0.0)` on `Total Profit`. -/
def fillTotalProfit : Option AggRow → Val
  | none => Val.num 0
  | some a => a.totalProfit

/-- Lines 75-78 of `app.py` on one joined row: fill a missing sales part
with zeros, coerce `Total Sold` to int, and compute
`Current Stock = Opening Stock + Stock In - Stock Out - Total Sold`. -/
def finishRow (pm : StockRowS × Option AggRow) : Except String MergedRow :=
  andThen (astypeInt (fillTotalSold pm.2)) (fun ts =>
    .ok { product := pm.1.product, category := pm.1.category,
          opening := pm.1.opening, stockIn := pm.1.stockIn,
          stockOut := pm.1.stockOut, minThreshold := pm.1.minThreshold,
          totalSold := ts,
          salesValue := fillSalesValue pm.2,
          totalProfit := fillTotalProfit pm.2,
          currentStock := pm.1.opening + pm.1.stockIn - pm.1.stockOut - ts })

/-- Lines 66-78 of `app.py`: aggregate the sanitized Sales rows and merge
them onto the sanitized Stock rows. -/
def reconcile (salesRows : List SalesRowS) (stockT : StockFrameS) :
    Except String (List MergedRow) :=
  andThen (salesAgg salesRows) (fun agg =>
    exMap finishRow (pdMergeLeft stockT.rows agg))

/-- The pure body of `sanitize_and_prepare` (lines 46-80 of `app.py`),
acting on the copied frames: returns the sanitized Sales rows, the
sanitized Stock frame and the reconciled rows, or the first uncaught
Python exception. -/
def sanitizeCore (sf : SalesFrame) (tf : StockFrame) :
    Except String (List SalesRowS × StockFrameS × List MergedRow) :=
  andThen (sanitizeSales sf) (fun rows' =>
    andThen (reconcile rows' (sanitizeStock tf)) (fun merged =>
      .ok (rows', sanitizeStock tf, merged)))

/-- A Sales dataframe object: either still raw or overwritten by the
sanitizer's column assignments. -/
inductive SalesObj where
  | raw (f : SalesFrame)
  | clean (rows : List SalesRowS)
deriving DecidableEq, Inhabited

/-- A Stock dataframe object: raw or sanitized. -/
inductive StockObj where
  | raw (f : StockFrame)
  | clean (f : StockFrameS)
deriving DecidableEq, Inhabited

/-- Object store for the dataframes: models Python object identity, so
that mutating a copy is distinguishable from mutating a caller-owned
frame.  An object id is its position in the list; allocation appends. -/
structure Heap where
  sales : List SalesObj
  stock : List StockObj
deriving DecidableEq, Inhabited

/-- The returned heap and result of a successful call: the two fresh
objects (allocated by the copies of lines 47-48) now hold the sanitized
frames, and the returned ids point at them. -/
def prepareOut (h : Heap)
    (out : List SalesRowS × StockFrameS × List MergedRow) :
    Heap × Nat × Nat × List MergedRow :=
  ({ sales := h.sales ++ [SalesObj.clean out.1],
     stock := h.stock ++ [StockObj.clean out.2.1] },
   h.sales.length, h.stock.length, out.2.2)

/-- `sanitize_and_prepare(sales_df, stock_df)` with explicit object
identity: the arguments are object ids into the heap.  Lines 47-48
(`.copy()`) allocate fresh objects; every later column assignment of the
function body hits only those fresh objects, which the returned ids point
to.  Calling it on something other than two raw frames is outside the
modelled scope and errors. -/
def sanitize_and_prepare (h : Heap) (sid tid : Nat) :
    Except String (Heap × Nat × Nat × List MergedRow) :=
  match h.sales[sid]?, h.stock[tid]? with
  | some (SalesObj.raw sf), some (StockObj.raw tf) =>
      andThen (sanitizeCore sf tf) (fun out => .ok (prepareOut h out))
  | _, _ => .error "TypeError: sanitize_and_prepare expects two dataframes"

/-- Line 124 of `app.py`: the date-range filter over the sanitized Sales
rows.  A pandas comparison against NaT is false, so a row with a null date
never satisfies the closed range. -/
def filterByDate (rows : List SalesRowS) (startD endD : ℤ) : List SalesRowS :=
  rows.filter (fun r =>
    match r.date with
    | some d => decide (startD ≤ d) && decide (d ≤ endD)
    | none => false)

/-- First index whose element satisfies `p`; embeds
`df[df['Product'] == p].index[0]` (`none` when pandas would raise
`IndexError` on an empty selection). -/
def firstIdx {α : Type} (p : α → Bool) : List α → Option Nat
  | [] => none
  | a :: l => if p a then some 0 else (firstIdx p l).map (fun i => i + 1)

/-- Lines 168-171 of `app.py` on the selected reconciled row: add the
deltas to `Stock In` and `Stock Out`, overwrite `Min Threshold`, then
recompute `Current Stock` from the updated constituents. -/
def adjustRow (r : MergedRow) (addIn addOut thr : ℤ) : MergedRow :=
  let r1 := { r with stockIn := r.stockIn + addIn }
  let r2 := { r1 with stockOut := r1.stockOut + addOut }
  let r3 := { r2 with minThreshold := thr }
  { r3 with currentStock := r3.opening + r3.stockIn - r3.stockOut - r3.totalSold }

/-- Lines 167-171 of `app.py`: locate the first reconciled row of the
selected product and replace it by its adjusted version.  `none` models the
`IndexError` on a product with no row. -/
def applyAdjustment (merged : List MergedRow) (p : String)
    (addIn addOut thr : ℤ) : Option (List MergedRow) :=
  match firstIdx (fun r => r.product == p) merged with
  | none => none
  | some i => some (merged.set i (adjustRow ((merged[i]?).getD default) addIn addOut thr))

/-- `stock_df.columns.get_loc c` (0-based position of a column name; the
sanitizer guarantees presence of the three written columns, so the
missing-name fallback is never reached under the claims). -/
def getLoc : List String → String → Nat
  | [], _ => 0
  | c :: cs, n => if c = n then 0 else getLoc cs n + 1

/-- One `update_cell(row, col, value)` call: 1-based sheet row (including
the header), 1-based column, written value. -/
structure CellWrite where
  row : Nat
  col : Nat
  value : ℤ
deriving DecidableEq, Inhabited

/-- Lines 173-176 of `app.py`: the write-back of an applied adjustment.
The sheet row is the position of the first matching row of the sanitized
Stock frame plus the fixed header offset 2; the columns are located with
`columns.get_loc(...) + 1`; the values are read from the already-updated
reconciled row.  Modelled from the spec: the source file is cut off inside
the third `update_cell` call (the `Min Threshold` write), which the spec
describes as the third of the three sequential cell writes; the first two
writes are taken verbatim from the source. -/
def writeBack (stockT : StockFrameS) (p : String) (newRow : MergedRow) :
    Option (List CellWrite) :=
  match firstIdx (fun s => s.product == p) stockT.rows with
  | none => none
  | some j =>
      some [⟨j + 2, getLoc stockT.cols "Stock In" + 1, newRow.stockIn⟩,
            ⟨j + 2, getLoc stockT.cols "Stock Out" + 1, newRow.stockOut⟩,
            ⟨j + 2, getLoc stockT.cols "Min Threshold" + 1, newRow.minThreshold⟩]

/-- One observable output of the run: the title, an error banner, the
`st.stop()` halt, the data-derived dashboard body (abstracted to the
reconciled rows it is computed from), or an uncaught exception. -/
inductive RenderItem where
  | title (s : String)
  | errorBox (s : String)
  | halted
  | dashboard (merged : List MergedRow)
  | exception (msg : String)
deriving DecidableEq

/-- The dashboard body on a successful load (lines 93-176 of `app.py`),
abstracted to the reconciled data it renders; an uncaught pipeline
exception aborts the script. -/
def renderBody (sf : SalesFrame) (tf : StockFrame) : List RenderItem :=
  match sanitizeCore sf tf with
  | .error e => [.exception e]
  | .ok (_, _, merged) => [.dashboard merged]

/-- Lines 84-93 of `app.py`: the title is emitted, then the load result is
inspected; a load failure shows `st.error` with the underlying message and
stops, a success renders the body. -/
def mainRun (load : Except String (SalesFrame × StockFrame)) : List RenderItem :=
  RenderItem.title "📊 Sales & Stock Management Dashboard (Google Sheets)" ::
    match load with
    | .error e => [.errorBox ("Could not load Google Sheet: " ++ e), .halted]
    | .ok (sf, tf) => renderBody sf tf

/-! Concrete record sets used to witness the theorems.  The worked values
follow the scenario of the specification (product "A": Opening 10, In 5,
Out 2, Threshold 8; one sale of 3 units at price 10, cost 6). -/

/-- Sanitized Sales rows of the worked scenario. -/
def w1sales : List SalesRowS :=
  [⟨some 1, "A", .num 3, .num 10, .num 6, .num 30, .num 12⟩]

/-- Sanitized Stock frame of the worked scenario. -/
def w1stock : StockFrameS :=
  ⟨["Product", "Category", "Opening Stock", "Stock In", "Stock Out", "Min Threshold"],
   [⟨"A", "Widgets", 10, 5, 2, 8⟩]⟩

/-- The reconciled output of the worked scenario. -/
def w1merged : List MergedRow :=
  [⟨"A", "Widgets", 10, 5, 2, 8, 3, .num 30, .num 12, 10⟩]

/-- Sales rows for the join-shape witness (product "C" has no sales). -/
def w2sales : List SalesRowS :=
  [⟨some 1, "A", .num 3, .num 10, .num 6, .num 30, .num 12⟩]

/-- Stock frame with a second product "C" absent from Sales. -/
def w2stock : StockFrameS :=
  ⟨["Product", "Category", "Opening Stock", "Stock In", "Stock Out", "Min Threshold"],
   [⟨"A", "Widgets", 10, 5, 2, 8⟩, ⟨"C", "Misc", 4, 1, 1, 2⟩]⟩

/-- Reconciled output: one row per Stock row, "C" zero-filled. -/
def w2merged : List MergedRow :=
  [⟨"A", "Widgets", 10, 5, 2, 8, 3, .num 30, .num 12, 10⟩,
   ⟨"C", "Misc", 4, 1, 1, 2, 0, .num 0, .num 0, 4⟩]

/-- Raw Sales frame with a negative unit price (and no Date column). -/
def w3sf : SalesFrame :=
  ⟨false, true, true, true,
   [⟨Val.str "20240101", "A", Val.num 4, Val.num (-2), Val.num 0⟩]⟩

/-- Its sanitized row: Total = 4 × (-2), Profit = (-2 - 0) × 4. -/
def w3row : SalesRowS :=
  ⟨none, "A", .num 4, .num (-2), .num 0, .num (-8), .num (-8)⟩

/-- The sanitized row set of `w3sf`. -/
def w3rows : List SalesRowS := [w3row]

/-- Raw Sales frame holding a non-numeric `Unit Price` cell. -/
def c4sf : SalesFrame :=
  ⟨true, true, true, true,
   [⟨Val.str "Jan", "A", Val.num 2, Val.str "abc", Val.num 5⟩]⟩

/-- A benign raw Stock frame for the same run. -/
def c4st : StockFrame :=
  ⟨["Product", "Category"],
   [⟨"A", "c", Val.num 0, Val.num 0, Val.num 0, Val.num 0⟩]⟩

/-- Raw Sales frame missing all three numeric columns. -/
def w4sf : SalesFrame :=
  ⟨false, false, false, false,
   [⟨Val.str "x", "A", Val.num 9, Val.num 9, Val.num 9⟩]⟩

/-- Its sanitized rows: every defaulted cell is 0. -/
def w4rows : List SalesRowS :=
  [⟨none, "A", .num 0, .num 0, .num 0, .num 0, .num 0⟩]

/-- Raw Stock frame missing three numeric columns, with a non-numeric
`Opening Stock` cell. -/
def w4tf : StockFrame :=
  ⟨["Product", "Category", "Opening Stock"],
   [⟨"A", "c", Val.str "junk", Val.num 9, Val.num 9, Val.num 9⟩]⟩

/-- Sanitized Sales rows for the adjustment witness. -/
def w5sales : List SalesRowS :=
  [⟨some 1, "A", .num 3, .num 10, .num 6, .num 30, .num 12⟩]

/-- Sanitized Stock frame for the adjustment witness. -/
def w5stock : StockFrameS :=
  ⟨["Product", "Category", "Opening Stock", "Stock In", "Stock Out", "Min Threshold"],
   [⟨"A", "Widgets", 10, 5, 2, 8⟩]⟩

/-- Reconciled rows for the adjustment witness. -/
def w5merged : List MergedRow :=
  [⟨"A", "Widgets", 10, 5, 2, 8, 3, .num 30, .num 12, 10⟩]

/-- Raw Sales frame whose only row has an unparseable (empty) date. -/
def w6sf : SalesFrame :=
  ⟨true, true, true, true,
   [⟨Val.str "", "A", Val.num 2, Val.num 5, Val.num 1⟩]⟩

/-- Its sanitized rows: the date is the null marker. -/
def w6rows : List SalesRowS :=
  [⟨none, "A", .num 2, .num 5, .num 1, .num 10, .num 8⟩]

/-- Raw Sales frame (no rows) for the heap-level witnesses. -/
def w8sf : SalesFrame := ⟨true, true, true, true, []⟩

/-- Raw Stock frame for the heap-level witnesses. -/
def w8tf : StockFrame :=
  ⟨["Product", "Category", "Opening Stock", "Stock In", "Stock Out", "Min Threshold"],
   [⟨"A", "c", Val.num 1, Val.num 2, Val.num 3, Val.num 4⟩]⟩

/-- Sanitized version of `w8tf`. -/
def w8tfS : StockFrameS :=
  ⟨["Product", "Category", "Opening Stock", "Stock In", "Stock Out", "Min Threshold"],
   [⟨"A", "c", 1, 2, 3, 4⟩]⟩

/-- Reconciled rows of the heap-level witness run. -/
def w8merged : List MergedRow :=
  [⟨"A", "c", 1, 2, 3, 4, 0, .num 0, .num 0, 0⟩]

/-- Initial heap: the two caller-owned raw frames. -/
def w8heap : Heap := ⟨[SalesObj.raw w8sf], [StockObj.raw w8tf]⟩

/-- Heap after the run: the caller objects plus the two fresh copies. -/
def w8heap1 : Heap :=
  ⟨[SalesObj.raw w8sf, SalesObj.clean []],
   [StockObj.raw w8tf, StockObj.clean w8tfS]⟩

/-- Raw Sales frame for the mutation-freedom witness. -/
def w9sf : SalesFrame := ⟨true, true, true, true, []⟩

/-- Raw Stock frame for the mutation-freedom witness. -/
def w9tf : StockFrame :=
  ⟨["Product", "Category", "Opening Stock", "Stock In", "Stock Out", "Min Threshold"],
   [⟨"B", "c", Val.num 7, Val.num 0, Val.num 0, Val.num 5⟩]⟩

/-- Sanitized version of `w9tf`. -/
def w9tfS : StockFrameS :=
  ⟨["Product", "Category", "Opening Stock", "Stock In", "Stock Out", "Min Threshold"],
   [⟨"B", "c", 7, 0, 0, 5⟩]⟩

/-- Reconciled rows of the mutation-freedom witness run. -/
def w9merged : List MergedRow :=
  [⟨"B", "c", 7, 0, 0, 5, 0, .num 0, .num 0, 7⟩]

/-- Initial heap for the mutation-freedom witness. -/
def w9heap : Heap := ⟨[SalesObj.raw w9sf], [StockObj.raw w9tf]⟩

/-- Heap after the mutation-freedom witness run. -/
def w9heap1 : Heap :=
  ⟨[SalesObj.raw w9sf, SalesObj.clean []],
   [StockObj.raw w9tf, StockObj.clean w9tfS]⟩

/-- Stock frame with a duplicated product key "A". -/
def w10stock : StockFrameS :=
  ⟨["Product", "Category", "Opening Stock", "Stock In", "Stock Out", "Min Threshold"],
   [⟨"A", "c", 10, 0, 0, 1⟩, ⟨"A", "d", 20, 0, 0, 2⟩]⟩

/-- Reconciled rows of the duplicate-key run (no sales). -/
def w10merged : List MergedRow :=
  [⟨"A", "c", 10, 0, 0, 1, 0, .num 0, .num 0, 10⟩,
   ⟨"A", "d", 20, 0, 0, 2, 0, .num 0, .num 0, 20⟩]

/-! Helper lemmas about the embedded combinators. -/

/-- Elimination for a successful `andThen`. -/
theorem andThen_ok {α β : Type} {e : Except String α} {k : α → Except String β}
    {b : β} (h : andThen e k = .ok b) : ∃ a, e = .ok a ∧ k a = .ok b := by
  cases e with
  | error m => simp [andThen] at h
  | ok a => exact ⟨a, rfl, h⟩

/-- A successful `exMap` relates input and output elementwise. -/
theorem exMap_ok_forall2 {α β : Type} {f : α → Except String β} :
    ∀ {l : List α} {l' : List β}, exMap f l = .ok l' →
      List.Forall₂ (fun a b => f a = Except.ok b) l l' := by
  intro l
  induction l with
  | nil =>
      intro l' h
      simp only [exMap, Except.ok.injEq] at h
      subst h
      exact List.Forall₂.nil
  | cons a t ih =>
      intro l' h
      unfold exMap at h
      cases hfa : f a with
      | error e => rw [hfa] at h; simp at h
      | ok b =>
          rw [hfa] at h
          cases hrest : exMap f t with
          | error e => rw [hrest] at h; simp at h
          | ok bs =>
              rw [hrest] at h
              simp only [Except.ok.injEq] at h
              subst h
              exact List.Forall₂.cons hfa (ih hrest)

/-- A successful `exMap` preserves the length. -/
theorem exMap_ok_length {α β : Type} {f : α → Except String β}
    {l : List α} {l' : List β} (h : exMap f l = .ok l') :
    l'.length = l.length :=
  (exMap_ok_forall2 h).length_eq.symm

/-- Every output element of a successful `exMap` is the image of some input
element. -/
theorem exMap_ok_mem {α β : Type} {f : α → Except String β}
    {l : List α} {l' : List β} (h : exMap f l = .ok l') :
    ∀ b ∈ l', ∃ a ∈ l, f a = Except.ok b := by
  have H := exMap_ok_forall2 h
  clear h
  induction H with
  | nil => intro b hb; simp at hb
  | cons hab htl ih =>
      intro b hb
      rcases List.mem_cons.mp hb with hb | hb
      · exact ⟨_, List.mem_cons_self _ _, hb ▸ hab⟩
      · obtain ⟨a, ha, hfa⟩ := ih b hb
        exact ⟨a, List.mem_cons_of_mem _ ha, hfa⟩

/-- Positional version of `exMap_ok_mem`. -/
theorem exMap_ok_get {α β : Type} {f : α → Except String β}
    {l : List α} {l' : List β} (h : exMap f l = .ok l') :
    ∀ (k : Nat) (a : α), l[k]? = some a →
      ∃ b, l'[k]? = some b ∧ f a = Except.ok b := by
  have H := exMap_ok_forall2 h
  clear h
  induction H with
  | nil => intro k a hk; simp at hk
  | cons hab htl ih =>
      intro k a hk
      cases k with
      | zero =>
          simp only [List.getElem?_cons_zero, Option.some.injEq] at hk
          subst hk
          exact ⟨_, by simp, hab⟩
      | succ n =>
          rw [List.getElem?_cons_succ] at hk
          obtain ⟨b, hb, hfb⟩ := ih n a hk
          exact ⟨b, by rw [List.getElem?_cons_succ]; exact hb, hfb⟩

/-- A found first index is in range and its element satisfies the
predicate. -/
theorem firstIdx_some {α : Type} {p : α → Bool} :
    ∀ {l : List α} {i : Nat}, firstIdx p l = some i →
      i < l.length ∧ ∃ a, l[i]? = some a ∧ p a = true := by
  intro l
  induction l with
  | nil => intro i h; simp [firstIdx] at h
  | cons a t ih =>
      intro i h
      unfold firstIdx at h
      cases hpa : p a with
      | true =>
          rw [hpa] at h
          simp only [if_true, Option.some.injEq] at h
          subst h
          exact ⟨Nat.succ_pos _, a, by simp, hpa⟩
      | false =>
          rw [hpa] at h
          simp only [Bool.false_eq_true, if_false] at h
          cases hft : firstIdx p t with
          | none => rw [hft] at h; simp at h
          | some j =>
              rw [hft] at h
              simp only [Option.map_some', Option.some.injEq] at h
              subst h
              obtain ⟨hlt, b, hb, hpb⟩ := ih hft
              exact ⟨Nat.succ_lt_succ hlt, b, by rw [List.getElem?_cons_succ]; exact hb, hpb⟩

/-- Two pointwise-matching predicates find the same first index. -/
theorem firstIdx_congr {α β : Type} {pb : α → Bool} {qb : β → Bool} :
    ∀ {l₁ : List α} {l₂ : List β},
      List.Forall₂ (fun a b => pb a = qb b) l₁ l₂ →
      firstIdx pb l₁ = firstIdx qb l₂ := by
  intro l₁ l₂ h
  induction h with
  | nil => rfl
  | cons hab htl ih => simp only [firstIdx, hab, ih]

/-- Transfer a `Forall₂` along a second `Forall₂` sharing the left list. -/
theorem forall2_shift {α β γ : Type} {P : α → β → Prop} {Q : α → γ → Prop}
    {R : γ → β → Prop} (H : ∀ a b c, P a b → Q a c → R c b) :
    ∀ {l₁ : List α} {l₂ : List β} {l₃ : List γ},
      List.Forall₂ P l₁ l₂ → List.Forall₂ Q l₁ l₃ → List.Forall₂ R l₃ l₂ := by
  intro l₁ l₂ l₃ h1
  induction h1 generalizing l₃ with
  | nil =>
      intro h2
      cases h2
      exact List.Forall₂.nil
  | cons hab htl ih =>
      intro h2
      cases h2 with
      | cons hac htl2 => exact List.Forall₂.cons (H _ _ _ hab hac) (ih htl2)

/-! Structural lemmas about the pipeline stages. -/

/-- Field description of a successfully sanitized Sales row. -/
theorem sanitizeRow_ok {f : SalesFrame} {a : SalesRow} {r : SalesRowS}
    (h : sanitizeRow f a = .ok r) :
    r.qty = colOr f.hasQty a.qty ∧ r.price = colOr f.hasPrice a.price ∧
    r.cost = colOr f.hasCost a.cost ∧
    r.date = (if f.hasDate then parseDate a.date else none) ∧
    r.product = a.product ∧
    pyMul r.qty r.price = .ok r.total ∧
    (∃ d, pySub r.price r.cost = .ok d ∧ pyMul d r.qty = .ok r.profit) := by
  obtain ⟨t, h1, h⟩ := andThen_ok h
  obtain ⟨d, h2, h⟩ := andThen_ok h
  obtain ⟨pr, h3, h⟩ := andThen_ok h
  simp only [Except.ok.injEq] at h
  subst h
  exact ⟨rfl, rfl, rfl, rfl, rfl, h1, d, h2, h3⟩

/-- A successful per-product aggregate is keyed by its product. -/
theorem aggFor_ok_product {rows : List SalesRowS} {p : String} {a : AggRow}
    (h : aggFor rows p = .ok a) : a.product = p := by
  obtain ⟨ts, _, h⟩ := andThen_ok h
  obtain ⟨sv, _, h⟩ := andThen_ok h
  obtain ⟨tp, _, h⟩ := andThen_ok h
  simp only [Except.ok.injEq] at h
  subst h
  rfl

/-- The products of the aggregation are exactly the distinct Sales
products. -/
theorem salesAgg_products {rows : List SalesRowS} {agg : List AggRow}
    (h : salesAgg rows = .ok agg) :
    agg.map (fun a => a.product) = uniqKeys (rows.map fun r => r.product) := by
  have H := exMap_ok_forall2 h
  clear h
  revert H
  generalize uniqKeys (List.map (fun r => r.product) rows) = keys
  intro H
  induction H with
  | nil => rfl
  | cons hpa htl ih => simp only [List.map_cons, aggFor_ok_product hpa, ih]

/-- Aggregation keys are pairwise distinct. -/
theorem salesAgg_nodup {rows : List SalesRowS} {agg : List AggRow}
    (h : salesAgg rows = .ok agg) :
    (agg.map fun a => a.product).Nodup := by
  rw [salesAgg_products h]
  exact List.nodup_dedup _

/-- With distinct aggregation keys, a Stock row has at most one join
match. -/
theorem matchesFor_len_le_one {agg : List AggRow}
    (hnd : (agg.map fun a => a.product).Nodup) (p : String) :
    (matchesFor agg p).length ≤ 1 := by
  induction agg with
  | nil => simp [matchesFor]
  | cons a t ih =>
      simp only [List.map_cons, List.nodup_cons] at hnd
      obtain ⟨hna, hnt⟩ := hnd
      unfold matchesFor
      rw [List.filter_cons]
      cases hap : (a.product == p) with
      | false => simpa [matchesFor] using ih hnt
      | true =>
          have hpe : a.product = p := by simpa using hap
          have hempty : List.filter (fun x => x.product == p) t = [] := by
            rw [List.filter_eq_nil_iff]
            intro x hx hxp
            apply hna
            have hxpe : x.product = p := by simpa using hxp
            rw [hpe, ← hxpe]
            exact List.mem_map_of_mem (fun a => a.product) hx
          simp [hempty]

/-- With distinct aggregation keys the left join yields exactly one row per
Stock row, positionally aligned. -/
theorem pdMergeLeft_forall2 {agg : List AggRow}
    (hnd : (agg.map fun a => a.product).Nodup) :
    ∀ stockRows : List StockRowS,
      List.Forall₂ (fun (pm : StockRowS × Option AggRow) (s : StockRowS) => pm.1 = s)
        (pdMergeLeft stockRows agg) stockRows := by
  intro stockRows
  induction stockRows with
  | nil => exact List.Forall₂.nil
  | cons s rest ih =>
      unfold pdMergeLeft
      cases hm : matchesFor agg s.product with
      | nil => exact List.Forall₂.cons rfl ih
      | cons a ms =>
          have hlen := matchesFor_len_le_one hnd s.product
          rw [hm] at hlen
          cases ms with
          | nil => exact List.Forall₂.cons rfl ih
          | cons b ms' => simp at hlen

/-- Every joined row comes from its Stock row, with either no match (null
sales part) or an aggregation row of the same product. -/
theorem pdMergeLeft_mem {agg : List AggRow} :
    ∀ {stockRows : List StockRowS} {pm : StockRowS × Option AggRow},
      pm ∈ pdMergeLeft stockRows agg →
      pm.2 = none ∨ ∃ a ∈ agg, pm.2 = some a ∧ a.product = pm.1.product := by
  intro stockRows
  induction stockRows with
  | nil => intro pm h; simp [pdMergeLeft] at h
  | cons s rest ih =>
      intro pm h
      unfold pdMergeLeft at h
      rw [List.mem_append] at h
      rcases h with h | h
      · cases hm : matchesFor agg s.product with
        | nil =>
            rw [hm] at h
            simp only [List.mem_singleton] at h
            subst h
            left
            rfl
        | cons a ms =>
            rw [hm] at h
            simp only [List.mem_map] at h
            obtain ⟨a', ha', hpm⟩ := h
            subst hpm
            right
            have hmem : a' ∈ matchesFor agg s.product := by rw [hm]; exact ha'
            refine ⟨a', List.mem_of_mem_filter hmem, rfl, ?_⟩
            have := List.of_mem_filter hmem
            simpa using this
      · exact ih h

/-- Field description of a finished merged row. -/
theorem finishRow_ok {s : StockRowS} {oa : Option AggRow} {r : MergedRow}
    (h : finishRow (s, oa) = .ok r) :
    r.product = s.product ∧ r.category = s.category ∧ r.opening = s.opening ∧
    r.stockIn = s.stockIn ∧ r.stockOut = s.stockOut ∧
    r.minThreshold = s.minThreshold ∧
    r.currentStock = r.opening + r.stockIn - r.stockOut - r.totalSold ∧
    (oa = none → r.totalSold = 0 ∧ r.salesValue = Val.num 0 ∧
      r.totalProfit = Val.num 0) := by
  obtain ⟨ts, hts, h⟩ := andThen_ok h
  simp only [Except.ok.injEq] at h
  subst h
  refine ⟨rfl, rfl, rfl, rfl, rfl, rfl, rfl, ?_⟩
  intro hoa
  subst hoa
  have h0 : astypeInt (fillTotalSold none) = Except.ok 0 := rfl
  rw [h0] at hts
  simp only [Except.ok.injEq] at hts
  subst hts
  exact ⟨rfl, rfl, rfl⟩

/-- Decomposition of a successful reconciliation. -/
theorem reconcile_ok_parts {salesRows : List SalesRowS} {stockT : StockFrameS}
    {merged : List MergedRow} (h : reconcile salesRows stockT = .ok merged) :
    ∃ agg, salesAgg salesRows = .ok agg ∧
      (agg.map fun a => a.product).Nodup ∧
      (agg.map fun a => a.product) = uniqKeys (salesRows.map fun r => r.product) ∧
      exMap finishRow (pdMergeLeft stockT.rows agg) = .ok merged := by
  obtain ⟨agg, hs, h⟩ := andThen_ok h
  exact ⟨agg, hs, salesAgg_nodup hs, salesAgg_products hs, h⟩

/-- The reconciled rows align positionally with the Stock rows and share
their products. -/
theorem reconcile_align {salesRows : List SalesRowS} {stockT : StockFrameS}
    {merged : List MergedRow} (h : reconcile salesRows stockT = .ok merged) :
    List.Forall₂ (fun (r : MergedRow) (s : StockRowS) => r.product = s.product)
      merged stockT.rows := by
  obtain ⟨agg, _, hnd, _, hex⟩ := reconcile_ok_parts h
  have F1 := pdMergeLeft_forall2 hnd stockT.rows
  have F2 := exMap_ok_forall2 hex
  refine forall2_shift ?_ F1 F2
  rintro ⟨s', oa⟩ s r hps hfr
  cases hps
  exact (finishRow_ok hfr).1

/-- Decomposition of a successful `sanitize_and_prepare` call. -/
theorem sanitize_and_prepare_ok_elim
    {h : Heap} {sid tid : Nat} {h1 : Heap} {sid1 tid1 : Nat}
    {m1 : List MergedRow}
    (hok : sanitize_and_prepare h sid tid = .ok (h1, sid1, tid1, m1)) :
    ∃ sf tf rows' tf',
      h.sales[sid]? = some (SalesObj.raw sf) ∧
      h.stock[tid]? = some (StockObj.raw tf) ∧
      sanitizeCore sf tf = .ok (rows', tf', m1) ∧
      h1 = { sales := h.sales ++ [SalesObj.clean rows'],
             stock := h.stock ++ [StockObj.clean tf'] } ∧
      sid1 = h.sales.length ∧ tid1 = h.stock.length := by
  unfold sanitize_and_prepare at hok
  cases hs : h.sales[sid]? with
  | none => rw [hs] at hok; simp at hok
  | some so =>
      cases ht : h.stock[tid]? with
      | none => rw [hs, ht] at hok; cases so <;> simp at hok
      | some to_ =>
          rw [hs, ht] at hok
          cases so with
          | clean _ => simp at hok
          | raw sf =>
              cases to_ with
              | clean _ => simp at hok
              | raw tf =>
                  replace hok :
                      andThen (sanitizeCore sf tf)
                        (fun out => Except.ok (prepareOut h out)) =
                        Except.ok (h1, sid1, tid1, m1) := hok
                  obtain ⟨out, hc, hk⟩ := andThen_ok hok
                  obtain ⟨rows', tf', merged⟩ := out
                  simp only [prepareOut, Except.ok.injEq, Prod.mk.injEq] at hk
                  obtain ⟨hh1, hsid, htid, hm⟩ := hk
                  subst hm
                  exact ⟨sf, tf, rows', tf', rfl, rfl, hc,
                         hh1.symm, hsid.symm, htid.symm⟩

/-- Elimination for a successful adjustment: the first matching index was
found and only that position was replaced. -/
theorem applyAdjustment_some {merged : List MergedRow} {p : String}
    {aI aO th : ℤ} {merged' : List MergedRow}
    (h : applyAdjustment merged p aI aO th = some merged') :
    ∃ i, firstIdx (fun r => r.product == p) merged = some i ∧
      merged' = merged.set i (adjustRow ((merged[i]?).getD default) aI aO th) := by
  unfold applyAdjustment at h
  cases hfi : firstIdx (fun r => r.product == p) merged with
  | none => rw [hfi] at h; exact absurd h (by simp)
  | some i =>
      rw [hfi] at h
      injection h with h
      exact ⟨i, rfl, h.symm⟩

/-! The claims. -/

/-- C1: for every row of the reconciler's output, Current Stock equals
Opening Stock + Stock In - Stock Out - Total Sold, both immediately after
reconciliation and again after an adjustment (Add-In, Remove-Out, new
threshold) is applied to any product's row. -/
theorem reconciled_currentStock_invariant
    (salesRows : List SalesRowS) (stockT : StockFrameS)
    (merged : List MergedRow)
    (hok : reconcile salesRows stockT = .ok merged) :
    (∀ r ∈ merged,
       r.currentStock = r.opening + r.stockIn - r.stockOut - r.totalSold) ∧
    (∀ (p : String) (aI aO th : ℤ) (merged' : List MergedRow),
       applyAdjustment merged p aI aO th = some merged' →
       ∀ r ∈ merged',
         r.currentStock = r.opening + r.stockIn - r.stockOut - r.totalSold) := by
  obtain ⟨agg, _, _, _, hex⟩ := reconcile_ok_parts hok
  have base : ∀ r ∈ merged,
      r.currentStock = r.opening + r.stockIn - r.stockOut - r.totalSold := by
    intro r hr
    obtain ⟨pm, _, hfr⟩ := exMap_ok_mem hex r hr
    obtain ⟨s', oa⟩ := pm
    exact (finishRow_ok hfr).2.2.2.2.2.2.1
  refine ⟨base, ?_⟩
  intro p aI aO th merged' happ
  obtain ⟨i, _, hset⟩ := applyAdjustment_some happ
  subst hset
  intro r hr
  rcases List.mem_or_eq_of_mem_set hr with hmem | heq
  · exact base r hmem
  · subst heq
    rfl

/-- Witness for C1 on the worked scenario. -/
theorem reconciled_currentStock_invariant_witness :
    (∀ r ∈ w1merged,
       r.currentStock = r.opening + r.stockIn - r.stockOut - r.totalSold) ∧
    (∀ (p : String) (aI aO th : ℤ) (merged' : List MergedRow),
       applyAdjustment w1merged p aI aO th = some merged' →
       ∀ r ∈ merged',
         r.currentStock = r.opening + r.stockIn - r.stockOut - r.totalSold) :=
  reconciled_currentStock_invariant w1sales w1stock w1merged rfl

/-- C2: reconcile produces exactly one output row per Stock row (Stock as
the left side of the join), positionally aligned by product; a Stock row
whose product matches no Sales product gets Total Sold = 0,
Sales Value = 0, Total Profit = 0 rather than null, and every output row
is a Stock row's product, so Sales-only products are absent. -/
theorem reconcile_left_join_shape
    (salesRows : List SalesRowS) (stockT : StockFrameS)
    (merged : List MergedRow)
    (hok : reconcile salesRows stockT = .ok merged) :
    List.Forall₂ (fun (r : MergedRow) (s : StockRowS) => r.product = s.product)
      merged stockT.rows ∧
    merged.length = stockT.rows.length ∧
    (∀ r ∈ merged, r.product ∉ salesRows.map (fun x => x.product) →
      r.totalSold = 0 ∧ r.salesValue = Val.num 0 ∧ r.totalProfit = Val.num 0) := by
  have halign := reconcile_align hok
  refine ⟨halign, halign.length_eq, ?_⟩
  intro r hr hnp
  obtain ⟨agg, hs, hnd, hprod, hex⟩ := reconcile_ok_parts hok
  obtain ⟨pm, hpm, hfr⟩ := exMap_ok_mem hex r hr
  obtain ⟨s', oa⟩ := pm
  rcases pdMergeLeft_mem hpm with hnone | hsome
  · exact (finishRow_ok hfr).2.2.2.2.2.2.2 hnone
  · exfalso
    apply hnp
    obtain ⟨a, ha, _, hap⟩ := hsome
    have h1 : r.product = s'.product := (finishRow_ok hfr).1
    have h2 : a.product ∈ agg.map (fun a => a.product) :=
      List.mem_map_of_mem (fun a => a.product) ha
    rw [hprod, uniqKeys, List.mem_dedup] at h2
    rw [h1, ← hap]
    exact h2

/-- Witness for C2: product "C" has stock but no sales. -/
theorem reconcile_left_join_shape_witness :
    List.Forall₂ (fun (r : MergedRow) (s : StockRowS) => r.product = s.product)
      w2merged w2stock.rows ∧
    w2merged.length = w2stock.rows.length ∧
    (∀ r ∈ w2merged, r.product ∉ w2sales.map (fun x => x.product) →
      r.totalSold = 0 ∧ r.salesValue = Val.num 0 ∧ r.totalProfit = Val.num 0) :=
  reconcile_left_join_shape w2sales w2stock w2merged rfl

/-- C3: every sanitized Sales row with numeric cells has
Total = Quantity Sold × Unit Price and
Profit = (Unit Price - Cost Price) × Quantity Sold, including zero or
negative prices. -/
theorem sales_derived_fields
    (f : SalesFrame) (rows' : List SalesRowS)
    (hok : sanitizeSales f = .ok rows') :
    ∀ r ∈ rows', ∀ q u c : ℚ,
      r.qty = .num q → r.price = .num u → r.cost = .num c →
      r.total = .num (q * u) ∧ r.profit = .num ((u - c) * q) := by
  intro r hr q u c hq hu hc
  have hok' : exMap (sanitizeRow f) f.rows = .ok rows' := hok
  obtain ⟨a, _, hfa⟩ := exMap_ok_mem hok' r hr
  obtain ⟨_, _, _, _, _, hmul, d, hsub, hmul2⟩ := sanitizeRow_ok hfa
  rw [hq, hu] at hmul
  rw [hu, hc] at hsub
  have e1 : pyMul (Val.num q) (Val.num u) = Except.ok (Val.num (q * u)) := rfl
  rw [e1] at hmul
  injection hmul with hmul
  have e2 : pySub (Val.num u) (Val.num c) = Except.ok (Val.num (u - c)) := rfl
  rw [e2] at hsub
  injection hsub with hsub
  rw [← hsub, hq] at hmul2
  have e3 : pyMul (Val.num (u - c)) (Val.num q) =
      Except.ok (Val.num ((u - c) * q)) := rfl
  rw [e3] at hmul2
  injection hmul2 with hmul2
  exact ⟨hmul.symm, hmul2.symm⟩

/-- Witness for C3 with a negative unit price and zero cost price. -/
theorem sales_derived_fields_witness :
    w3row.total = Val.num (4 * (-2)) ∧
    w3row.profit = Val.num (((-2) - 0) * 4) :=
  sales_derived_fields w3sf w3rows (by
    norm_num [w3sf, w3rows, w3row, sanitizeSales, exMap, sanitizeRow, andThen,
      colOr, pyMul, pySub])
    w3row (List.mem_singleton_self w3row) 4 (-2) 0 rfl rfl rfl

/-- C4 counterexample: sanitization is not error-free on every input.  A
non-numeric `Unit Price` cell in a present Sales column is not coerced to
zero; the `Profit` computation of line 57 subtracts it and raises a
`TypeError`, which `sanitize_and_prepare` does not catch. -/
theorem sanitize_error_counterexample :
    sanitizeCore c4sf c4st =
      .error "TypeError: unsupported operand types for sub" := rfl

/-- C4 (amended): sanitization never errors on the Stock set — a missing
Stock numeric column is defaulted to 0 for the whole column and a
non-numeric Stock cell is coerced to 0 (`sanitizeStock` is total and keeps
every row); a missing Sales numeric column is likewise defaulted to 0 for
the whole column; but a non-numeric value inside a present Sales numeric
column is not coerced and can propagate an error. -/
theorem sanitize_zero_default_policy
    (tf : StockFrame) (sf : SalesFrame) (rows' : List SalesRowS)
    (hok : sanitizeSales sf = .ok rows') :
    (sanitizeStock tf).rows.length = tf.rows.length ∧
    (∀ s : String, parseRat s = none → coerceCell (Val.str s) = 0) ∧
    (tf.cols.contains "Opening Stock" = false →
       ∀ r' ∈ (sanitizeStock tf).rows, r'.opening = 0) ∧
    (tf.cols.contains "Stock In" = false →
       ∀ r' ∈ (sanitizeStock tf).rows, r'.stockIn = 0) ∧
    (tf.cols.contains "Stock Out" = false →
       ∀ r' ∈ (sanitizeStock tf).rows, r'.stockOut = 0) ∧
    (tf.cols.contains "Min Threshold" = false →
       ∀ r' ∈ (sanitizeStock tf).rows, r'.minThreshold = 0) ∧
    (sf.hasQty = false → ∀ r ∈ rows', r.qty = Val.num 0) ∧
    (sf.hasPrice = false → ∀ r ∈ rows', r.price = Val.num 0) ∧
    (sf.hasCost = false → ∀ r ∈ rows', r.cost = Val.num 0) := by
  have hok' : exMap (sanitizeRow sf) sf.rows = .ok rows' := hok
  refine ⟨by simp [sanitizeStock], ?_, ?_, ?_, ?_, ?_, ?_, ?_, ?_⟩
  · intro s hs
    simp only [coerceCell, toNumQ, hs, Option.getD]
    decide
  · intro hcol r' hr'
    simp only [sanitizeStock, List.mem_map] at hr'
    obtain ⟨r, _, hr⟩ := hr'
    subst hr
    rw [hcol]
    rfl
  · intro hcol r' hr'
    simp only [sanitizeStock, List.mem_map] at hr'
    obtain ⟨r, _, hr⟩ := hr'
    subst hr
    rw [hcol]
    rfl
  · intro hcol r' hr'
    simp only [sanitizeStock, List.mem_map] at hr'
    obtain ⟨r, _, hr⟩ := hr'
    subst hr
    rw [hcol]
    rfl
  · intro hcol r' hr'
    simp only [sanitizeStock, List.mem_map] at hr'
    obtain ⟨r, _, hr⟩ := hr'
    subst hr
    rw [hcol]
    rfl
  · intro hq r hr
    obtain ⟨a, _, hfa⟩ := exMap_ok_mem hok' r hr
    rw [(sanitizeRow_ok hfa).1, hq]
    rfl
  · intro hu r hr
    obtain ⟨a, _, hfa⟩ := exMap_ok_mem hok' r hr
    rw [(sanitizeRow_ok hfa).2.1, hu]
    rfl
  · intro hc r hr
    obtain ⟨a, _, hfa⟩ := exMap_ok_mem hok' r hr
    rw [(sanitizeRow_ok hfa).2.2.1, hc]
    rfl

/-- Witness for the amended C4: a Stock frame missing three numeric
columns with a non-numeric `Opening Stock` string, and a Sales frame
missing all three numeric columns. -/
theorem sanitize_zero_default_policy_witness :
    (sanitizeStock w4tf).rows.length = w4tf.rows.length ∧
    (∀ s : String, parseRat s = none → coerceCell (Val.str s) = 0) ∧
    (w4tf.cols.contains "Opening Stock" = false →
       ∀ r' ∈ (sanitizeStock w4tf).rows, r'.opening = 0) ∧
    (w4tf.cols.contains "Stock In" = false →
       ∀ r' ∈ (sanitizeStock w4tf).rows, r'.stockIn = 0) ∧
    (w4tf.cols.contains "Stock Out" = false →
       ∀ r' ∈ (sanitizeStock w4tf).rows, r'.stockOut = 0) ∧
    (w4tf.cols.contains "Min Threshold" = false →
       ∀ r' ∈ (sanitizeStock w4tf).rows, r'.minThreshold = 0) ∧
    (w4sf.hasQty = false → ∀ r ∈ w4rows, r.qty = Val.num 0) ∧
    (w4sf.hasPrice = false → ∀ r ∈ w4rows, r.price = Val.num 0) ∧
    (w4sf.hasCost = false → ∀ r ∈ w4rows, r.cost = Val.num 0) :=
  sanitize_zero_default_policy w4tf w4sf w4rows (by
    norm_num [w4sf, w4rows, sanitizeSales, exMap, sanitizeRow, andThen, colOr,
      pyMul, pySub])

/-- C5: applying a confirmed adjustment updates the selected product's
reconciled row by Stock In += Add-In, Stock Out += Remove-Out,
Min Threshold := new value, recomputes Current Stock by the reconciliation
formula, and writes the three updated cell values back, addressed by the
first matching row's offset in the Stock set plus the fixed header offset
2 and by `columns.get_loc + 1`. -/
theorem adjustment_update_and_writeback
    (salesRows : List SalesRowS) (stockT : StockFrameS)
    (merged : List MergedRow)
    (hok : reconcile salesRows stockT = .ok merged)
    (p : String) (i : Nat)
    (hp : firstIdx (fun r => r.product == p) merged = some i)
    (aI aO th : ℤ) :
    ∃ r0, merged[i]? = some r0 ∧
      applyAdjustment merged p aI aO th =
        some (merged.set i (adjustRow r0 aI aO th)) ∧
      adjustRow r0 aI aO th =
        { r0 with stockIn := r0.stockIn + aI, stockOut := r0.stockOut + aO,
                  minThreshold := th,
                  currentStock := r0.opening + (r0.stockIn + aI) -
                    (r0.stockOut + aO) - r0.totalSold } ∧
      firstIdx (fun s => s.product == p) stockT.rows = some i ∧
      writeBack stockT p (adjustRow r0 aI aO th) =
        some [⟨i + 2, getLoc stockT.cols "Stock In" + 1, r0.stockIn + aI⟩,
              ⟨i + 2, getLoc stockT.cols "Stock Out" + 1, r0.stockOut + aO⟩,
              ⟨i + 2, getLoc stockT.cols "Min Threshold" + 1, th⟩] := by
  obtain ⟨_, r0, hr0, _⟩ := firstIdx_some hp
  have halign := reconcile_align hok
  have hcong : firstIdx (fun r : MergedRow => r.product == p) merged =
      firstIdx (fun s : StockRowS => s.product == p) stockT.rows :=
    firstIdx_congr (halign.imp (fun r s hrs => by rw [hrs]))
  have hstock : firstIdx (fun s : StockRowS => s.product == p) stockT.rows =
      some i := by rw [← hcong]; exact hp
  refine ⟨r0, hr0, ?_, rfl, hstock, ?_⟩
  · unfold applyAdjustment
    rw [hp]
    show some (merged.set i (adjustRow (merged[i]?.getD default) aI aO th)) =
      some (merged.set i (adjustRow r0 aI aO th))
    rw [hr0]
    rfl
  · unfold writeBack
    rw [hstock]
    rfl

/-- Witness for C5 on the worked adjustment scenario (Add-In 0,
Remove-Out 15, threshold 8). -/
theorem adjustment_update_and_writeback_witness :
    ∃ r0, w5merged[0]? = some r0 ∧
      applyAdjustment w5merged "A" 0 15 8 =
        some (w5merged.set 0 (adjustRow r0 0 15 8)) ∧
      adjustRow r0 0 15 8 =
        { r0 with stockIn := r0.stockIn + 0, stockOut := r0.stockOut + 15,
                  minThreshold := 8,
                  currentStock := r0.opening + (r0.stockIn + 0) -
                    (r0.stockOut + 15) - r0.totalSold } ∧
      firstIdx (fun s => s.product == "A") w5stock.rows = some 0 ∧
      writeBack w5stock "A" (adjustRow r0 0 15 8) =
        some [⟨0 + 2, getLoc w5stock.cols "Stock In" + 1, r0.stockIn + 0⟩,
              ⟨0 + 2, getLoc w5stock.cols "Stock Out" + 1, r0.stockOut + 15⟩,
              ⟨0 + 2, getLoc w5stock.cols "Min Threshold" + 1, 8⟩] :=
  adjustment_update_and_writeback w5sales w5stock w5merged rfl "A" 0 rfl 0 15 8

/-- C6: a Sales row whose date fails to parse gets the null marker without
an error, stays in the sanitized set, belongs to the group its product's
unfiltered aggregate sums over, and is excluded from every
date-range-filtered view. -/
theorem unparseable_date_handling
    (sf : SalesFrame) (rows' : List SalesRowS)
    (hok : sanitizeSales sf = .ok rows')
    (k : Nat) (a : SalesRow) (hk : sf.rows[k]? = some a)
    (hbad : parseDate a.date = none) :
    ∃ r', rows'[k]? = some r' ∧ r'.date = none ∧
      rows'.length = sf.rows.length ∧
      (∀ startD endD : ℤ, r' ∉ filterByDate rows' startD endD) ∧
      r' ∈ groupOf rows' r'.product := by
  have hok' : exMap (sanitizeRow sf) sf.rows = .ok rows' := hok
  obtain ⟨r', hr', hfa⟩ := exMap_ok_get hok' k a hk
  have hdate : r'.date = none := by
    rw [(sanitizeRow_ok hfa).2.2.2.1]
    cases sf.hasDate <;> simp [hbad]
  have hmem : r' ∈ rows' := by
    obtain ⟨hlt, hget⟩ := List.getElem?_eq_some.mp hr'
    exact hget ▸ List.getElem_mem hlt
  refine ⟨r', hr', hdate, exMap_ok_length hok', ?_, ?_⟩
  · intro startD endD hin
    rw [filterByDate, List.mem_filter, hdate] at hin
    simpa using hin.2
  · rw [groupOf, List.mem_filter]
    exact ⟨hmem, by simp⟩

/-- Witness for C6: an empty date cell. -/
theorem unparseable_date_handling_witness :
    ∃ r', w6rows[0]? = some r' ∧ r'.date = none ∧
      w6rows.length = w6sf.rows.length ∧
      (∀ startD endD : ℤ, r' ∉ filterByDate w6rows startD endD) ∧
      r' ∈ groupOf w6rows r'.product :=
  unparseable_date_handling w6sf w6rows
    (by norm_num [w6sf, w6rows, sanitizeSales, exMap, sanitizeRow, andThen,
      colOr, pyMul, pySub, parseDate, digitsVal])
    0 ⟨Val.str "", "A", Val.num 2, Val.num 5, Val.num 1⟩ rfl rfl

/-- C7: a failed Record Source read renders only the static title, the
error banner carrying the underlying message verbatim, and the halt; no
dashboard content (and no other item) is emitted. -/
theorem load_failure_halts_rendering (e : String) :
    mainRun (.error e) =
      [RenderItem.title "📊 Sales & Stock Management Dashboard (Google Sheets)",
       RenderItem.errorBox ("Could not load Google Sheet: " ++ e),
       RenderItem.halted] ∧
    (∀ m : List MergedRow, RenderItem.dashboard m ∉ mainRun (.error e)) := by
  constructor
  · rfl
  · intro m hm
    simp [mainRun] at hm

/-- With two raw frames at the given ids, the call reduces to the core
pipeline on those frames. -/
theorem sanitize_and_prepare_run {h : Heap} {sid tid : Nat}
    {sf : SalesFrame} {tf : StockFrame}
    (hs : h.sales[sid]? = some (SalesObj.raw sf))
    (ht : h.stock[tid]? = some (StockObj.raw tf)) :
    sanitize_and_prepare h sid tid =
      andThen (sanitizeCore sf tf) (fun out => Except.ok (prepareOut h out)) := by
  unfold sanitize_and_prepare
  rw [hs, ht]

/-- C8: reconciliation is idempotent and deterministic — re-running
`sanitize_and_prepare` on the heap left by a successful run, with the same
caller objects, succeeds and returns the same reconciled rows. -/
theorem pipeline_idempotent
    (h : Heap) (sid tid : Nat) (h1 : Heap) (sid1 tid1 : Nat)
    (m1 : List MergedRow)
    (hok : sanitize_and_prepare h sid tid = .ok (h1, sid1, tid1, m1)) :
    ∃ h2 sid2 tid2 m2,
      sanitize_and_prepare h1 sid tid = .ok (h2, sid2, tid2, m2) ∧
      m2 = m1 := by
  obtain ⟨sf, tf, rows', tf', hs, ht, hc, hh1, _, _⟩ :=
    sanitize_and_prepare_ok_elim hok
  have hsl : sid < h.sales.length := (List.getElem?_eq_some.mp hs).1
  have htl : tid < h.stock.length := (List.getElem?_eq_some.mp ht).1
  have hs1 : h1.sales[sid]? = some (SalesObj.raw sf) := by
    rw [hh1]
    show (h.sales ++ [SalesObj.clean rows'])[sid]? = _
    rw [List.getElem?_append, if_pos hsl]
    exact hs
  have ht1 : h1.stock[tid]? = some (StockObj.raw tf) := by
    rw [hh1]
    show (h.stock ++ [StockObj.clean tf'])[tid]? = _
    rw [List.getElem?_append, if_pos htl]
    exact ht
  refine ⟨{ sales := h1.sales ++ [SalesObj.clean rows'],
            stock := h1.stock ++ [StockObj.clean tf'] },
          h1.sales.length, h1.stock.length, m1, ?_, rfl⟩
  rw [sanitize_and_prepare_run hs1 ht1, hc]
  rfl

/-- Witness for C8 on a one-product run. -/
theorem pipeline_idempotent_witness :
    ∃ h2 sid2 tid2 m2,
      sanitize_and_prepare w8heap1 0 0 = .ok (h2, sid2, tid2, m2) ∧
      m2 = w8merged :=
  pipeline_idempotent w8heap 0 0 w8heap1 1 1 w8merged rfl

/-- C9: `sanitize_and_prepare` mutates no caller-owned object — every
pre-existing heap object, in particular the two argument frames, is
unchanged after the call; the sanitizer works on the fresh copies of
lines 47-48 only. -/
theorem sanitize_no_caller_mutation
    (h : Heap) (sid tid : Nat) (h1 : Heap) (sid1 tid1 : Nat)
    (m1 : List MergedRow)
    (hok : sanitize_and_prepare h sid tid = .ok (h1, sid1, tid1, m1)) :
    (∀ k, k < h.sales.length → h1.sales[k]? = h.sales[k]?) ∧
    (∀ k, k < h.stock.length → h1.stock[k]? = h.stock[k]?) ∧
    h1.sales[sid]? = h.sales[sid]? ∧
    h1.stock[tid]? = h.stock[tid]? := by
  obtain ⟨sf, tf, rows', tf', hs, ht, _, hh1, _, _⟩ :=
    sanitize_and_prepare_ok_elim hok
  have hsl : sid < h.sales.length := (List.getElem?_eq_some.mp hs).1
  have htl : tid < h.stock.length := (List.getElem?_eq_some.mp ht).1
  have hsales : ∀ k, k < h.sales.length → h1.sales[k]? = h.sales[k]? := by
    intro k hk
    rw [hh1]
    show (h.sales ++ [SalesObj.clean rows'])[k]? = _
    rw [List.getElem?_append, if_pos hk]
  have hstock : ∀ k, k < h.stock.length → h1.stock[k]? = h.stock[k]? := by
    intro k hk
    rw [hh1]
    show (h.stock ++ [StockObj.clean tf'])[k]? = _
    rw [List.getElem?_append, if_pos hk]
  exact ⟨hsales, hstock, hsales sid hsl, hstock tid htl⟩

/-- Witness for C9 on a one-product run. -/
theorem sanitize_no_caller_mutation_witness :
    (∀ k, k < w9heap.sales.length → w9heap1.sales[k]? = w9heap.sales[k]?) ∧
    (∀ k, k < w9heap.stock.length → w9heap1.stock[k]? = w9heap.stock[k]?) ∧
    w9heap1.sales[0]? = w9heap.sales[0]? ∧
    w9heap1.stock[0]? = w9heap.stock[0]? :=
  sanitize_no_caller_mutation w9heap 0 0 w9heap1 1 1 w9merged rfl

/-- C10: with duplicate Product rows in Stock, an adjustment for that
product changes only the first matching reconciled row (every other
position is unchanged) and the write-back addresses the first matching
Stock row's position plus the header offset 2 in all three cell writes;
later duplicates are untouched in memory and in the store. -/
theorem duplicate_product_first_wins
    (salesRows : List SalesRowS) (stockT : StockFrameS)
    (merged : List MergedRow)
    (hok : reconcile salesRows stockT = .ok merged)
    (p : String) (i : Nat)
    (hfirst : firstIdx (fun s : StockRowS => s.product == p) stockT.rows =
      some i)
    (aI aO th : ℤ) :
    firstIdx (fun r : MergedRow => r.product == p) merged = some i ∧
    ∃ merged', applyAdjustment merged p aI aO th = some merged' ∧
      (∀ k, k ≠ i → merged'[k]? = merged[k]?) ∧
      ∃ r0, merged[i]? = some r0 ∧
        writeBack stockT p (adjustRow r0 aI aO th) =
          some [⟨i + 2, getLoc stockT.cols "Stock In" + 1, r0.stockIn + aI⟩,
                ⟨i + 2, getLoc stockT.cols "Stock Out" + 1, r0.stockOut + aO⟩,
                ⟨i + 2, getLoc stockT.cols "Min Threshold" + 1, th⟩] := by
  have halign := reconcile_align hok
  have hcong : firstIdx (fun r : MergedRow => r.product == p) merged =
      firstIdx (fun s : StockRowS => s.product == p) stockT.rows :=
    firstIdx_congr (halign.imp (fun r s hrs => by rw [hrs]))
  have hm : firstIdx (fun r : MergedRow => r.product == p) merged = some i := by
    rw [hcong]; exact hfirst
  obtain ⟨_, r0, hr0, _⟩ := firstIdx_some hm
  refine ⟨hm, merged.set i (adjustRow r0 aI aO th), ?_, ?_, r0, hr0, ?_⟩
  · unfold applyAdjustment
    rw [hm]
    show some (merged.set i (adjustRow (merged[i]?.getD default) aI aO th)) = _
    rw [hr0]
    rfl
  · intro k hk
    exact List.getElem?_set_ne (Ne.symm hk)
  · unfold writeBack
    rw [hfirst]
    rfl

/-- Witness for C10: two Stock rows both keyed "A". -/
theorem duplicate_product_first_wins_witness :
    firstIdx (fun r : MergedRow => r.product == "A") w10merged = some 0 ∧
    ∃ merged', applyAdjustment w10merged "A" 5 1 3 = some merged' ∧
      (∀ k, k ≠ 0 → merged'[k]? = w10merged[k]?) ∧
      ∃ r0, w10merged[0]? = some r0 ∧
        writeBack w10stock "A" (adjustRow r0 5 1 3) =
          some [⟨0 + 2, getLoc w10stock.cols "Stock In" + 1, r0.stockIn + 5⟩,
                ⟨0 + 2, getLoc w10stock.cols "Stock Out" + 1, r0.stockOut + 1⟩,
                ⟨0 + 2, getLoc w10stock.cols "Min Threshold" + 1, 3⟩] :=
  duplicate_product_first_wins [] w10stock w10merged rfl "A" 0 rfl 5 1 3

end SalesApp
